import Mathlib

/-!
Shallow embedding of the yeytest mobile-test-automation pipeline
(`src/yytest`): the core data models (`core/models.py`), the local
heuristics validator (`validation/local.py`), the AI vision validator
(`validation/ai.py`), the step orchestrator (`maestro/runner.py`), the
video anomaly detector (`video/analyzer.py`) and the self-healing loop
of the web app (`web/app.py`).

Modelling conventions:
* Python floats are embedded as exact rationals `ℚ`; the decimal
  constants of the code (`0.8`, `0.01`, `0.05`, ...) are written with the
  same digits as `mkRat 8 10`, `mkRat 1 100`, `mkRat 5 100`, ..., which
  denote exactly those decimals, so no rounding behaviour is lost.
* File-system paths are plain `String`s.
* Calls into external libraries (OpenCV, Tesseract/pytesseract, httpx,
  subprocess, the Maestro binary, the device bridge) are modelled as
  oracle fields of explicit environment structures; the repository's own
  logic (thresholds, short circuits, verdict construction, retry loop)
  is translated line by line from the source.
* Python string primitives used by the code (`str.lower`, `in`,
  `str.strip`, `str.split`, `re.findall(r"\d+", ...)`) are implemented
  on `List Char` with Python semantics.  `str.lower` implements the
  (locale-independent) Unicode simple lowercase map on the character
  ranges relevant to the matched keywords: ASCII, the Latin-1 uppercase
  block, and the Turkish letters Ğ, İ, Ş appearing in the code's
  literals; other characters are left unchanged.
* Diagnostic `details` dictionaries of verdicts and the
  `%`-formatted numbers interpolated into some diagnostic reason strings
  are not modelled; no property below inspects them.  Reason strings that
  the code builds without numeric formatting are reproduced verbatim.
-/

namespace Yeytest

/-- Python `str.lower` on a single character, as a character list since
`'İ'.lower()` is the two-character string `"i̇"` (U+0069 U+0307). -/
def pyLowerChar (c : Char) : List Char :=
  if c = 'İ' then ['i', '̇']
  else if 'A' ≤ c ∧ c ≤ 'Z' then [Char.ofNat (c.toNat + 32)]
  else if ('À' ≤ c ∧ c ≤ 'Ö') ∨ ('Ø' ≤ c ∧ c ≤ 'Þ') then [Char.ofNat (c.toNat + 32)]
  else if c = 'Ğ' then ['ğ']
  else if c = 'Ş' then ['ş']
  else [c]

/-- Python `str.lower` on a character list. -/
def pyLowerChars (l : List Char) : List Char :=
  l.flatMap pyLowerChar

/-- Python substring test `needle in hay` on character lists: `needle`
occurs contiguously in `hay` (the empty needle always occurs). -/
def pyContainsChars (needle : List Char) : List Char → Bool
  | [] => needle.isEmpty
  | c :: cs => needle.isPrefixOf (c :: cs) || pyContainsChars needle cs

/-- Python `needle in hay` for strings. -/
def pyContains (hay needle : String) : Bool :=
  pyContainsChars needle.data hay.data

/-- Characters removed by Python `str.strip()` (ASCII whitespace; the
code never strips strings containing non-ASCII whitespace). -/
def isPySpace (c : Char) : Bool :=
  c = ' ' || c = '\t' || c = '\n' || c = '\r' || c = '\x0b' || c = '\x0c'

/-- Python `str.strip()` on a character list. -/
def pyStripChars (l : List Char) : List Char :=
  ((l.dropWhile isPySpace).reverse.dropWhile isPySpace).reverse

/-- Python `str.strip()`. -/
def pyStrip (s : String) : String :=
  String.mk (pyStripChars s.data)

/-- Python `str.split("\n")` on a character list. -/
def splitNlChars : List Char → List (List Char)
  | [] => [[]]
  | c :: cs =>
    match splitNlChars cs with
    | [] => [[]]
    | t :: ts => if c = '\n' then [] :: t :: ts else (c :: t) :: ts

/-- The line list `content.strip().split("\n")` used by the AI response
parser. -/
def pyStripSplitLines (s : String) : List String :=
  (splitNlChars (pyStripChars s.data)).map String.mk

/-- Everything after the first `':'` of a character list, if any. -/
def afterColonChars : List Char → Option (List Char)
  | [] => none
  | c :: cs => if c = ':' then some cs else afterColonChars cs

/-- Python `line.split(":", 1)[-1].strip()`: the text after the first
colon (the whole line when there is no colon), stripped. -/
def afterFirstColonStripped (line : String) : String :=
  match afterColonChars line.data with
  | some r => pyStrip (String.mk r)
  | none => pyStrip line

/-- First maximal ASCII digit run of a character list as a number. -/
def firstNumberChars : List Char → Option ℕ
  | [] => none
  | c :: cs =>
    if c.isDigit then
      some (((c :: cs).takeWhile Char.isDigit).foldl
        (fun a d => 10 * a + (d.toNat - 48)) 0)
    else firstNumberChars cs

/-- First maximal ASCII digit run of a string as a number: the value of
`re.findall(r"\d+", line)[0]` when a digit exists. -/
def firstNumber (s : String) : Option ℕ :=
  firstNumberChars s.data

/-- The `ValidationResult` dataclass of `core/models.py` (the spec's
ValidationVerdict).  The diagnostic `details` mapping is not modelled. -/
structure ValidationResult where
  passed : Bool
  confidence : ℚ
  reason : String
  method : String
deriving DecidableEq, Repr

/-- Oracle for the external image/OCR libraries used by
`validation/local.py` and `video/analyzer.py`.  Each field records, for
the screenshot path(s) given, the value the library call would return:
* `imreadOk p`: whether `cv2.imread(p)` succeeds (is not `None`);
* `changeRatioOf b a`: the `pixel_difference` quantity
  `count_nonzero(gray(absdiff(img_b, resized img_a))) / total_pixels`;
* `redRatioOf p`: the red-mask pixel fraction of the HSV image computed
  by `detect_error_indicators`;
* `tesseractAvailable`: result of the `_check_tesseract` probe;
* `ocrText p`: `pytesseract.image_to_string` on the image at `p`;
* `meanBrightnessOf p`: `gray.mean()` of the frame at `p` (0..255 scale)
  used by the video analyzer;
* `frameChangeRatioOf p q`: the video analyzer quantity
  `(diff_gray > 30).sum() / diff_gray.size` between frames `p` and `q`. -/
structure Env where
  imreadOk : String → Bool
  changeRatioOf : String → String → ℚ
  redRatioOf : String → ℚ
  tesseractAvailable : Bool
  ocrText : String → String
  meanBrightnessOf : String → ℚ
  frameChangeRatioOf : String → String → ℚ

namespace LocalValidator

/-- `LocalValidator.pixel_difference` from `validation/local.py`. -/
def pixel_difference (env : Env) (before after : String) (threshold : ℚ) :
    ValidationResult :=
  if !env.imreadOk before || !env.imreadOk after then
    ⟨false, 0, "Screenshot okunamadı", "pixel_diff"⟩
  else if env.changeRatioOf before after < threshold then
    ⟨false, mkRat 9 10, "Ekranda değişiklik yok. Aksiyon çalışmamış olabilir.",
      "pixel_diff"⟩
  else
    ⟨true, mkRat 8 10, "Ekranda değişiklik tespit edildi", "pixel_diff"⟩

/-- The error words scanned by `detect_error_indicators`. -/
def errorWords : List String :=
  ["error", "failed", "hata", "başarısız", "crash", "exception"]

/-- `LocalValidator.check_text_exists` from `validation/local.py`. -/
def check_text_exists (env : Env) (screenshot expected_text : String)
    (case_sensitive : Bool) : ValidationResult :=
  if !env.tesseractAvailable then
    ⟨true, 0, "Tesseract OCR yüklü değil, text kontrolü atlandı", "ocr"⟩
  else
    let text := env.ocrText screenshot
    let textC := if case_sensitive then text.data else pyLowerChars text.data
    let expectedC :=
      if case_sensitive then expected_text.data
      else pyLowerChars expected_text.data
    if pyContainsChars expectedC textC then
      ⟨true, mkRat 85 100, "'" ++ String.mk expectedC ++ "' ekranda bulundu", "ocr"⟩
    else
      ⟨false, mkRat 85 100, "'" ++ String.mk expectedC ++ "' ekranda bulunamadı", "ocr"⟩

/-- `LocalValidator.detect_error_indicators` from `validation/local.py`. -/
def detect_error_indicators (env : Env) (screenshot : String) :
    ValidationResult :=
  if !env.imreadOk screenshot then
    ⟨true, 0, "Screenshot okunamadı", "error_detection"⟩
  else if env.redRatioOf screenshot > mkRat 5 100 then
    if env.tesseractAvailable &&
        errorWords.any (fun w =>
          pyContainsChars w.data (pyLowerChars (env.ocrText screenshot).data)) then
      ⟨false, mkRat 9 10, "Hata mesajı tespit edildi", "error_detection"⟩
    else
      ⟨true, mkRat 5 10, "Kırmızı alan tespit edildi ama hata texti yok",
        "error_detection"⟩
  else
    ⟨true, mkRat 8 10, "Hata göstergesi tespit edilmedi", "error_detection"⟩

/-- The all-checks-passed verdict of `validate_step`: mean confidence of
the executed checks (`sum(...)/len(results) if results else 0.5`). -/
def combinedVerdict (results : List ValidationResult) : ValidationResult :=
  let avg : ℚ :=
    if results.isEmpty then mkRat 5 10
    else (results.map ValidationResult.confidence).sum / results.length
  ⟨true, avg, "Tüm lokal doğrulamalar başarılı", "local_combined"⟩

/-- Continuation of `validate_step` after the optional pixel check: error
detection, then the optional text check (only for a truthy expectation
string), then the combined verdict; `results` accumulates the executed
checks in order. -/
def validateRest (env : Env) (after : String) (expected_text : Option String)
    (results : List ValidationResult) : ValidationResult :=
  let error_result := detect_error_indicators env after
  let results := results ++ [error_result]
  if !error_result.passed then error_result
  else
    match expected_text with
    | some t =>
      if t.isEmpty then combinedVerdict results
      else
        let text_result := check_text_exists env after t false
        if !text_result.passed then text_result
        else combinedVerdict (results ++ [text_result])
    | none => combinedVerdict results

/-- `LocalValidator.validate_step` from `validation/local.py`: pixel diff
(only when `before` is given, truthiness of an `Optional[Path]`), then
error indicators, then text presence, each short-circuiting on failure;
otherwise a passed `local_combined` verdict whose confidence is the mean
of the executed checks' confidences. -/
def validate_step (env : Env) (before : Option String) (after : String)
    (expected_text : Option String) : ValidationResult :=
  match before with
  | some b =>
    let pixel_result := pixel_difference env b after (mkRat 1 100)
    if !pixel_result.passed then pixel_result
    else validateRest env after expected_text [pixel_result]
  | none => validateRest env after expected_text []

end LocalValidator

namespace AIValidator

/-- Mutable state of the `_parse_ai_response` line loop in
`validation/ai.py`: the `passed`, `confidence` and `reason` variables. -/
structure ParseState where
  passed : Bool
  confidence : ℚ
  reason : String
deriving DecidableEq, Repr

/-- One iteration of the `_parse_ai_response` loop on a single line:
a result line assigns `passed`, otherwise a confidence line with a digit
run assigns `confidence = int(first run)/100`, otherwise an explanation
line assigns `reason`; any other line leaves the state unchanged. -/
def parseStep (st : ParseState) (line : String) : ParseState :=
  let ll := pyLowerChars line.data
  if pyContainsChars "sonuç:".data ll || pyContainsChars "result:".data ll then
    ⟨pyContainsChars "başarılı".data ll || pyContainsChars "success".data ll,
      st.confidence, st.reason⟩
  else if pyContainsChars "güven:".data ll ||
      pyContainsChars "confidence:".data ll then
    match firstNumber line with
    | some n => ⟨st.passed, mkRat n 100, st.reason⟩
    | none => st
  else if pyContainsChars "açıklama:".data ll ||
      pyContainsChars "explanation:".data ll then
    ⟨st.passed, st.confidence, afterFirstColonStripped line⟩
  else st

/-- `AIValidator._parse_ai_response` from `validation/ai.py`: fold the
line loop over `content.strip().split("\n")` starting from
`passed=True, confidence=0.5, reason=content`, then build an
`ai_vision` verdict. -/
def parse_ai_response (content : String) : ValidationResult :=
  let st := (pyStripSplitLines content).foldl parseStep ⟨true, mkRat 5 10, content⟩
  ⟨st.passed, st.confidence, st.reason, "ai_vision"⟩

/-- Whether `_parse_ai_response` treats `line` as a result line:
`"sonuç:" in line.lower() or "result:" in line.lower()`. -/
def isResultLine (line : String) : Bool :=
  pyContainsChars "sonuç:".data (pyLowerChars line.data) ||
    pyContainsChars "result:".data (pyLowerChars line.data)

/-- Whether `_parse_ai_response` treats `line` as a confidence line:
`"güven:" in line.lower() or "confidence:" in line.lower()`. -/
def isConfLine (line : String) : Bool :=
  pyContainsChars "güven:".data (pyLowerChars line.data) ||
    pyContainsChars "confidence:".data (pyLowerChars line.data)

/-- Whether `_parse_ai_response` treats `line` as an explanation line:
`"açıklama:" in line.lower() or "explanation:" in line.lower()`. -/
def isExplLine (line : String) : Bool :=
  pyContainsChars "açıklama:".data (pyLowerChars line.data) ||
    pyContainsChars "explanation:".data (pyLowerChars line.data)

/-- Outcome of the httpx POST made by the validator, at the boundary the
code observes: either a 2xx response whose parsed body text is
`content`, or any `httpx.HTTPError` (timeout, transport failure, or the
non-2xx `raise_for_status`) carrying `str(e)`. -/
inductive HttpResult
  | ok (content : String)
  | httpError (msg : String)
deriving DecidableEq, Repr

/-- Python truthiness of the `Optional[str]` API key: `None` and the
empty string are falsy. -/
def keyTruthy : Option String → Bool
  | none => false
  | some k => !k.isEmpty

/-- `AIValidator.validate_with_claude` from `validation/ai.py`, at the
transport boundary: no usable API key short-circuits to an `ai_skipped`
pass; an HTTP error yields an `ai_error` pass; a response body is fed to
the parser. -/
def validate_with_claude (api_key : Option String) (resp : HttpResult) :
    ValidationResult :=
  if !keyTruthy api_key then
    ⟨true, 0, "Anthropic API key bulunamadı, AI doğrulama atlandı",
      "ai_skipped"⟩
  else
    match resp with
    | .ok content => parse_ai_response content
    | .httpError e => ⟨true, 0, "AI API hatası: " ++ e, "ai_error"⟩

/-- `AIValidator.validate_with_openai` from `validation/ai.py`; identical
error contract with the OpenAI skip message. -/
def validate_with_openai (api_key : Option String) (resp : HttpResult) :
    ValidationResult :=
  if !keyTruthy api_key then
    ⟨true, 0, "OpenAI API key bulunamadı, AI doğrulama atlandı",
      "ai_skipped"⟩
  else
    match resp with
    | .ok content => parse_ai_response content
    | .httpError e => ⟨true, 0, "AI API hatası: " ++ e, "ai_error"⟩

/-- `AIValidator.validate`: dispatch on the provider string. -/
def validate (provider : String) (api_key : Option String)
    (resp : HttpResult) : ValidationResult :=
  if provider = "anthropic" then validate_with_claude api_key resp
  else validate_with_openai api_key resp

end AIValidator

/-- The `StepStatus` enum of `core/models.py`. -/
inductive StepStatus
  | PENDING
  | RUNNING
  | PASSED
  | FAILED
  | VISUAL_MISMATCH
deriving DecidableEq, Repr

/-- The `ValidationLevel` enum of `core/models.py`. -/
inductive ValidationLevel
  | NONE
  | LOCAL
  | AI
  | HYBRID
deriving DecidableEq, Repr

/-- A value of a Maestro step dictionary: either a string or a nested
string-keyed dictionary (the two shapes `_get_step_target` handles). -/
inductive StepVal
  | str (v : String)
  | dict (entries : List (String × String))
deriving DecidableEq, Repr

/-- A Maestro step: a Python dict, modelled as an association list with
distinct keys in insertion order. -/
abbrev MaestroStep := List (String × StepVal)

/-- The `StepResult` dataclass of `core/models.py` (the spec's
StepOutcome).  Screenshots are reduced to their paths; `duration_ms` is
not modelled. -/
structure StepResult where
  index : ℕ
  action : String
  target : String
  maestro_passed : Bool
  validation_result : Option ValidationResult
  screenshot_before : Option String
  screenshot_after : Option String
  error_message : String
deriving DecidableEq, Repr

/-- `StepResult.status` from `core/models.py`. -/
def StepResult.status (s : StepResult) : StepStatus :=
  if !s.maestro_passed then .FAILED
  else
    match s.validation_result with
    | none => .PASSED
    | some v => if !v.passed then .VISUAL_MISMATCH else .PASSED

/-- `StepResult.truly_passed` from `core/models.py`:
`maestro_passed and (validation_result is None or validation_result.passed)`. -/
def StepResult.truly_passed (s : StepResult) : Bool :=
  s.maestro_passed &&
    (match s.validation_result with
     | none => true
     | some v => v.passed)

/-- The `TestCase` dataclass of `core/models.py`. -/
structure TestCase where
  name : String
  description : String
  steps : List MaestroStep
  expectations : List String
deriving DecidableEq, Repr

/-- The `TestResult` dataclass of `core/models.py`, reduced to the fields
the properties below inspect (timestamps and the video path are not
modelled). -/
structure TestResult where
  test_case : TestCase
  step_results : List StepResult
deriving DecidableEq, Repr

/-- `TestResult.passed` from `core/models.py`. -/
def TestResult.passed (t : TestResult) : Bool :=
  t.step_results.all StepResult.truly_passed

namespace Maestro

/-- The known action keys scanned by `MaestroRunner._get_step_action`. -/
def maestroActions : List String :=
  ["tapOn", "tap", "assertVisible", "inputText", "scroll", "swipe",
   "launchApp"]

/-- Python `step.get(k)` on a step dictionary. -/
def lookupKey (step : MaestroStep) (k : String) : Option StepVal :=
  (step.find? (fun e => e.1 = k)).map (·.2)

/-- `MaestroRunner._get_step_action` from `maestro/runner.py`: the first
known action key present in the step, else the step's first key, else
`"unknown"` for an empty step. -/
def get_step_action (step : MaestroStep) : String :=
  match maestroActions.find? (fun a => (lookupKey step a).isSome) with
  | some a => a
  | none =>
    match step with
    | [] => "unknown"
    | (k, _) :: _ => k

/-- Python `str(d)` for a string-to-string dict, as produced when
`_get_step_target` falls back to `str(target)`. -/
def pyDictStr (entries : List (String × String)) : String :=
  "\x7b" ++
    String.intercalate ", "
      (entries.map (fun e => "'" ++ e.1 ++ "': '" ++ e.2 ++ "'")) ++
    "\x7d"

/-- `MaestroRunner._get_step_target` from `maestro/runner.py`:
`step.get(action, "")`, and for a dict value
`target.get("id", target.get("text", str(target)))`. -/
def get_step_target (step : MaestroStep) : String :=
  let action := get_step_action step
  match lookupKey step action with
  | none => ""
  | some (.str v) => v
  | some (.dict es) =>
    match es.find? (fun e => e.1 = "id") with
    | some e => e.2
    | none =>
      match es.find? (fun e => e.1 = "text") with
      | some e => e.2
      | none => pyDictStr es

/-- Python truthiness of the `Optional[str]` expectation: `None` and the
empty string are falsy (the `if self.ai_validator and expectation:` and
`expectation or ...` tests of `runner.py`). -/
def expTruthy : Option String → Bool
  | none => false
  | some e => !e.isEmpty

/-- `MaestroRunner._validate_step` from `maestro/runner.py`.
`aiConfigured` is `self.ai_validator is not None`; `ai screenshot
expectation context` is the oracle for `self.ai_validator.validate`
(an awaited HTTP call, resolved per `validation/ai.py`). -/
def validate_step (lvl : ValidationLevel) (aiConfigured : Bool) (env : Env)
    (ai : String → String → String → ValidationResult)
    (before : Option String) (after : String) (expectation : Option String)
    (step : MaestroStep) : Option ValidationResult :=
  if lvl = .NONE then none
  else if lvl = .LOCAL || lvl = .HYBRID then
    let local_result := LocalValidator.validate_step env before after expectation
    if lvl = .HYBRID then
      if local_result.passed && mkRat 8 10 ≤ local_result.confidence then
        some local_result
      else if aiConfigured && expTruthy expectation then
        some (ai after (expectation.getD "")
          ("Adım: " ++ get_step_action step ++ " " ++ get_step_target step))
      else some local_result
    else some local_result
  else if lvl = .AI && aiConfigured then
    some (ai after
      (match expectation with
       | some e => if e.isEmpty then "Adım başarıyla tamamlandı" else e
       | none => "Adım başarıyla tamamlandı") "")
  else none

/-- Whether `MaestroRunner.__init__` constructs an `AIValidator`:
exactly for levels `AI` and `HYBRID`. -/
def aiPresent (lvl : ValidationLevel) : Bool :=
  lvl = .AI || lvl = .HYBRID

/-- Oracle for the device, the Maestro binary and the AI endpoint as
observed by `MaestroRunner.run_test`:
* `runStep i` is the `(success, error_message)` pair `_run_maestro_step`
  returns for the yaml generated from step `i` (the subprocess is run
  without `check=True`, so a failing step returns rather than raises);
* `screenshotBefore i` is the before-screenshot path for step `i` when no
  previous screenshot exists, or `none` when `device.screenshot` raised
  and the `try/except` swallowed it;
* `screenshotAfter i` is the after-screenshot path of step `i`;
* `localEnv` and `ai` are the validation oracles. -/
structure RunnerEnv where
  localEnv : Env
  ai : String → String → String → ValidationResult
  runStep : ℕ → Bool × String
  screenshotBefore : ℕ → Option String
  screenshotAfter : ℕ → String

/-- The step loop of `MaestroRunner.run_test`: `i` is the enumeration
index and `prev` the `previous_screenshot` variable threading the after
screenshot of the previous step into the next before screenshot. -/
def runSteps (lvl : ValidationLevel) (renv : RunnerEnv)
    (expectations : List String) :
    ℕ → Option String → List MaestroStep → List StepResult
  | _, _, [] => []
  | i, prev, st :: rest =>
    let screenshot_before : Option String :=
      match prev with
      | some p => some p
      | none => renv.screenshotBefore i
    let mr := renv.runStep i
    let after := renv.screenshotAfter i
    let expectation := expectations.get? i
    let vr := validate_step lvl (aiPresent lvl) renv.localEnv renv.ai
      screenshot_before after expectation st
    ⟨i, get_step_action st, get_step_target st, mr.1, vr,
      screenshot_before, some after, mr.2⟩ ::
      runSteps lvl renv expectations (i + 1) (some after) rest

/-- `MaestroRunner.run_test` from `maestro/runner.py`, with Maestro
present (`_validate_maestro` succeeded) and the output directories
created. -/
def run_test (lvl : ValidationLevel) (renv : RunnerEnv) (tc : TestCase) :
    TestResult :=
  ⟨tc, runSteps lvl renv tc.expectations 0 none tc.steps⟩

end Maestro

namespace WebApp

/-- Outcome of the Groq repair call made by `analyze_and_fix_test`
(`web/app.py`), at the boundary the code observes: either the message
content string extracted from a successful curl + JSON decode, or any
exception along the way (`GroqParser` construction, non-zero curl exit
via `check=True`, the 30s timeout, JSON decode error, missing field). -/
inductive ProviderResult
  | content (s : String)
  | failure (msg : String)
deriving DecidableEq, Repr

/-- `analyze_and_fix_test` from `web/app.py`: with no truthy
`GROQ_API_KEY` or on any exception the original YAML is returned
unchanged; otherwise the response content with markdown fences removed
and stripped. -/
def analyze_and_fix_test (api_key : Option String)
    (provider : ProviderResult) (yaml_content : String) : String :=
  if !AIValidator.keyTruthy api_key then yaml_content
  else
    match provider with
    | .content c => pyStrip ((c.replace "```yaml" "").replace "```" "")
    | .failure _ => yaml_content

/-- One entry of the `test_runs[run_id]["retries"]` list appended by the
self-healing loop. -/
structure RetryAttempt where
  retry : ℕ
  status : String
  output : String
  error : Option String
  yaml : String
deriving DecidableEq, Repr

/-- Outcome of one iteration's setup-and-Maestro-run of the self-healing
loop, at the boundary the code observes: either some exception escaped
the `try` block (device/bridge setup, file IO, the subprocess timeout),
or the Maestro subprocess completed with `passed = (returncode == 0)`
and its captured stdout/stderr.  `subprocess.run` is called without
`check=True`, so a failing test run returns rather than raises. -/
inductive ExecOutcome
  | exn (msg : String)
  | ran (passed : Bool) (stdout stderr : String)
deriving DecidableEq, Repr

/-- Oracle for `run_self_healing_test_background`: `exec k` is iteration
`k`'s setup-and-run outcome, and `fix k yaml log` is the value
`analyze_and_fix_test(yaml, log, app_id)` returns at iteration `k`. -/
structure HealEnv where
  exec : ℕ → ExecOutcome
  fix : ℕ → String → String → String

/-- The mutable `test_runs[run_id]` record of the self-healing run
(fields not read by the properties below, such as name and timestamps,
are omitted). -/
structure HealState where
  status : String
  retries : List RetryAttempt
  currentRetry : ℕ
  finalYaml : Option String
  error : Option String
deriving DecidableEq, Repr

/-- The `while retry_count < max_retries` loop of
`run_self_healing_test_background` (`web/app.py`): `k` is `retry_count`
and `current_yaml` the YAML being healed.  An exception sets status
`error` and returns; a passing run appends its attempt, sets status
`passed` with the current YAML as final, and returns; a failing run
appends its attempt and either repairs and retries (when
`retry_count < max_retries - 1`) or sets status `failed` and returns. -/
def healGo (henv : HealEnv) (max_retries : ℕ) :
    ℕ → String → HealState → HealState
  | k, current_yaml, st =>
    if _h : k < max_retries then
      match henv.exec k with
      | .exn msg => ⟨"error", st.retries, k, st.finalYaml, some msg⟩
      | .ran passed out err =>
        let attempt : RetryAttempt :=
          ⟨k, if passed then "passed" else "failed", out,
            if passed then none else some err, current_yaml⟩
        let retries := st.retries ++ [attempt]
        if passed then
          ⟨"passed", retries, k, some current_yaml, st.error⟩
        else if k < max_retries - 1 then
          let error_log := if err.isEmpty then out else err
          healGo henv max_retries (k + 1) (henv.fix k current_yaml error_log)
            ⟨st.status, retries, k, st.finalYaml, st.error⟩
        else
          ⟨"failed", retries, k, some current_yaml, st.error⟩
    else ⟨st.status, st.retries, st.currentRetry, st.finalYaml, st.error⟩
termination_by k => max_retries - k
decreasing_by omega

/-- `run_self_healing_test_background` from `web/app.py` (a negative
`max_retries` behaves like `0`: the loop never runs, which `ℕ` captures
directly). -/
def run_self_healing_test_background (henv : HealEnv)
    (yaml_content : String) (max_retries : ℕ) : HealState :=
  healGo henv max_retries 0 yaml_content ⟨"running", [], 0, none, none⟩

end WebApp

namespace Video

/-- One anomaly dict appended by `VideoAnalyzer.detect_anomalies`
(`video/analyzer.py`).  The diagnostic `change_ratio` entry of
`sudden_change` anomalies and the `%`-formatted number in its
description are not modelled. -/
structure Anomaly where
  type : String
  frame_index : ℕ
  frame_path : String
  severity : String
  description : String
deriving DecidableEq, Repr

/-- The frame loop of `detect_anomalies`: `i` is the enumeration index
over all frames (including unreadable ones, which are skipped by
`continue` without updating `prev`), and `prev` the last readable
frame's path.  Per readable frame, in order: a `black_screen` anomaly
when mean brightness `< 10`, a `sudden_change` anomaly when the diff
ratio against `prev` exceeds the threshold, and an `error_indicator`
anomaly when `detect_error_indicators` fails. -/
def detectGo (env : Env) (threshold : ℚ) :
    ℕ → Option String → List String → List Anomaly
  | _, _, [] => []
  | i, prev, p :: rest =>
    if !env.imreadOk p then detectGo env threshold (i + 1) prev rest
    else
      let blackPart : List Anomaly :=
        if env.meanBrightnessOf p < 10 then
          [⟨"black_screen", i, p, "high",
            "Siyah ekran tespit edildi - crash olabilir"⟩]
        else []
      let suddenPart : List Anomaly :=
        match prev with
        | some q =>
          if env.frameChangeRatioOf p q > threshold then
            [⟨"sudden_change", i, p, "medium", "Ani ekran değişimi"⟩]
          else []
        | none => []
      let errPart : List Anomaly :=
        let er := LocalValidator.detect_error_indicators env p
        if !er.passed then [⟨"error_indicator", i, p, "high", er.reason⟩]
        else []
      blackPart ++ suddenPart ++ errPart ++
        detectGo env threshold (i + 1) (some p) rest

/-- `VideoAnalyzer.detect_anomalies` from `video/analyzer.py`. -/
def detect_anomalies (env : Env) (frames : List String) (threshold : ℚ) :
    List Anomaly :=
  detectGo env threshold 0 none frames

/-- The result dict of `VideoAnalyzer.analyze_video`: either the early
`{success: False, error: ...}` dict returned when no frames could be
extracted, or the full report. -/
inductive AnalyzeResult
  | extractFailed (error : String)
  | report (success : Bool) (total_frames : ℕ) (anomalies : List Anomaly)
      (anomaly_count : ℕ) (critical_anomalies : ℕ)
      (ai_insights : List ValidationResult)
deriving DecidableEq, Repr

/-- The `success` entry of an `analyze_video` result. -/
def AnalyzeResult.success : AnalyzeResult → Bool
  | .extractFailed _ => false
  | .report s _ _ _ _ _ => s

/-- `VideoAnalyzer.analyze_video` from `video/analyzer.py`, over the
already-extracted frame path list (`extract_frames` is an FFmpeg
subprocess; its output is the `frames` argument).  `aiConfigured` is
`self.ai_validator is not None` and `ai` the oracle for its awaited
`validate` call on the last frame. -/
def analyze_video (env : Env)
    (ai : String → String → String → ValidationResult)
    (aiConfigured : Bool) (frames : List String)
    (expectations : List String) (use_ai : Bool) : AnalyzeResult :=
  if frames.isEmpty then .extractFailed "Video'dan frame çıkarılamadı"
  else
    let anomalies := detect_anomalies env frames (mkRat 3 10)
    let ai_insights : List ValidationResult :=
      if use_ai && aiConfigured && !expectations.isEmpty then
        [ai (frames.getLast?.getD "") (String.intercalate "; " expectations)
          "Bu test videosunun son frame'i"]
      else []
    let has_critical := anomalies.any (fun a => a.severity = "high")
    .report (!has_critical) frames.length anomalies anomalies.length
      (anomalies.countP (fun a => a.severity = "high")) ai_insights

end Video

/-! Concrete library environments and inputs used to evaluate the
definitions on closed runs. -/

/-- A device whose screenshots read fine and change between steps, with
no red areas and no OCR installed. -/
def envOcrOff : Env :=
  ⟨fun _ => true, fun _ _ => 1, fun _ => 0, false, fun _ => "",
    fun _ => 128, fun _ _ => 0⟩

/-- Like `envOcrOff` but with OCR available and every screen reading
"Welcome". -/
def envOcrOn : Env :=
  ⟨fun _ => true, fun _ _ => 1, fun _ => 0, true, fun _ => "Welcome",
    fun _ => 128, fun _ _ => 0⟩

/-- A screen with a large red area (`red_ratio = 0.2`) whose OCR text
contains the error word "failed": `detect_error_indicators` fails on
every screenshot of this environment. -/
def envRedError : Env :=
  ⟨fun _ => true, fun _ _ => 1, fun _ => mkRat 2 10, true,
    fun _ => "Payment failed", fun _ => 128, fun _ _ => 0⟩

/-- A 10-frame video whose frame of index 5 has mean luminance 3 and
which is otherwise anomaly-free. -/
def envBlackFrame : Env :=
  ⟨fun _ => true, fun _ _ => 1, fun _ => 0, false, fun _ => "",
    fun p => if p = "f5" then 3 else 128, fun _ _ => 0⟩

/-- The frame paths of the 10-frame scenario. -/
def blackFrames : List String :=
  ["f0", "f1", "f2", "f3", "f4", "f5", "f6", "f7", "f8", "f9"]

/-- A stub AI verdict oracle that rejects with confidence 0.7, ignoring
its inputs; distinguishable from every local verdict. -/
def aiStub : String → String → String → ValidationResult :=
  fun _ _ _ => ⟨false, mkRat 7 10, "AI: beklenti karşılanmadı", "ai_vision"⟩

/-- A runner-failed step carrying a passing verdict of confidence 1.0. -/
def c6Step : StepResult :=
  ⟨0, "tapOn", "btn", false, some ⟨true, 1, "ok", "ai_vision"⟩, none,
    some "after.png", "element not found"⟩

/-- The pixel check `validate_step` executes: present exactly when
`before` is. -/
def pixelCheckList (env : Env) (before : Option String) (after : String) :
    List ValidationResult :=
  match before with
  | some b => [LocalValidator.pixel_difference env b after (mkRat 1 100)]
  | none => []

/-- The text check `validate_step` executes: present exactly for a
truthy expectation. -/
def textCheckList (env : Env) (after : String)
    (expected_text : Option String) : List ValidationResult :=
  match expected_text with
  | some t =>
    if t.isEmpty then []
    else [LocalValidator.check_text_exists env after t false]
  | none => []

/-- A runner environment whose first Maestro step succeeds and whose
later steps fail with "Element not found". -/
def renvC3 : Maestro.RunnerEnv :=
  ⟨envOcrOff, aiStub,
    fun i => if i = 0 then (true, "") else (false, "Element not found"),
    fun _ => none, fun i => "after_" ++ toString i ++ ".png"⟩

/-- A two-step test case: launch the app, then tap a Login button. -/
def tcC3 : TestCase :=
  ⟨"login test", "open and log in",
    [[("launchApp", StepVal.str "com.example")],
     [("tapOn", StepVal.str "Login")]],
    ["Uygulama açıldı", "Giriş ekranı görünür"]⟩

/-- Whether an iteration outcome is a completed-but-failed Maestro run
(the only outcome on which the self-healing loop continues). -/
def isRanFailed : WebApp.ExecOutcome → Bool
  | .ran false _ _ => true
  | _ => false

/-- The YAML in play at the start of iteration `k` of the self-healing
loop: the original text with one repair applied per earlier
ran-and-failed iteration (comparisons with runs are made under the
hypothesis that all earlier iterations ran and failed; the `.exn` case
is never reached there). -/
def healedYaml (henv : WebApp.HealEnv) (yaml : String) : ℕ → String
  | 0 => yaml
  | k + 1 =>
    match henv.exec k with
    | .ran _ out err =>
      henv.fix k (healedYaml henv yaml k) (if err.isEmpty then out else err)
    | .exn _ => healedYaml henv yaml k

/-- The attempts recorded by the first `k` iterations of the
self-healing loop when each of them ran and failed. -/
def failedAttempts (henv : WebApp.HealEnv) (yaml : String) :
    ℕ → List WebApp.RetryAttempt
  | 0 => []
  | k + 1 =>
    failedAttempts henv yaml k ++
      (match henv.exec k with
       | .ran _ out err =>
         [⟨k, "failed", out, some err, healedYaml henv yaml k⟩]
       | .exn _ => [])

/-- A self-healing environment whose Maestro runs always complete and
fail, with the repair returning the YAML unchanged. -/
def henvC2 : WebApp.HealEnv :=
  ⟨fun _ => WebApp.ExecOutcome.ran false "step FAILED" "assertion error",
    fun _ y _ => y⟩

/-- A self-healing environment whose first iteration runs and fails and
whose second iteration passes; each repair appends a fix comment. -/
def henvC2pass : WebApp.HealEnv :=
  ⟨fun k =>
    if k = 0 then
      WebApp.ExecOutcome.ran false "step 2 FAILED" "timeout hit"
    else WebApp.ExecOutcome.ran true "all steps COMPLETED" "",
    fun _ y _ => y ++ "\n# fix: increased wait"⟩

/-- The checks `LocalValidator.validate_step` executes, in order: pixel
difference when `before` is present, the error-indicator scan, and text
presence when a truthy expectation is supplied (the `results` list of
the source on the all-pass path). -/
def executedChecks (env : Env) (before : Option String) (after : String)
    (expected_text : Option String) : List ValidationResult :=
  pixelCheckList env before after ++
    [LocalValidator.detect_error_indicators env after] ++
    textCheckList env after expected_text

end Yeytest

namespace Yeytest

/-! Theorems settling the claims. -/

/-- A result line leaves everything but `passed` unchanged and assigns
`passed` from the success keywords. -/
theorem parseStep_result (st : AIValidator.ParseState) (l : String)
    (h : AIValidator.isResultLine l = true) :
    AIValidator.parseStep st l =
      ⟨pyContainsChars "başarılı".data (pyLowerChars l.data) ||
          pyContainsChars "success".data (pyLowerChars l.data),
        st.confidence, st.reason⟩ := by
  unfold AIValidator.isResultLine at h
  simp only [AIValidator.parseStep, h, if_true]

/-- A non-confidence line never changes the parsed confidence. -/
theorem parseStep_confidence (st : AIValidator.ParseState) (l : String)
    (h : AIValidator.isConfLine l = false) :
    (AIValidator.parseStep st l).confidence = st.confidence := by
  unfold AIValidator.isConfLine at h
  simp only [AIValidator.parseStep]
  split
  · rfl
  · rw [if_neg (by simp [h])]
    split
    · rfl
    · rfl

/-- A non-result line never changes the parsed verdict. -/
theorem parseStep_passed (st : AIValidator.ParseState) (l : String)
    (h : AIValidator.isResultLine l = false) :
    (AIValidator.parseStep st l).passed = st.passed := by
  unfold AIValidator.isResultLine at h
  simp only [AIValidator.parseStep]
  rw [if_neg (by simp [h])]
  split
  · split <;> rfl
  · split <;> rfl

/-- A line recognized by none of the three keyword groups is ignored. -/
theorem parseStep_unrecognized (st : AIValidator.ParseState) (l : String)
    (hr : AIValidator.isResultLine l = false)
    (hc : AIValidator.isConfLine l = false)
    (he : AIValidator.isExplLine l = false) :
    AIValidator.parseStep st l = st := by
  unfold AIValidator.isResultLine at hr
  unfold AIValidator.isConfLine at hc
  unfold AIValidator.isExplLine at he
  simp only [AIValidator.parseStep]
  rw [if_neg (by simp [hr]), if_neg (by simp [hc]), if_neg (by simp [he])]

/-- The line loop never changes the confidence when no line is a
confidence line. -/
theorem parseFold_confidence (lines : List String)
    (st : AIValidator.ParseState)
    (h : ∀ l ∈ lines, AIValidator.isConfLine l = false) :
    (lines.foldl AIValidator.parseStep st).confidence = st.confidence := by
  induction lines generalizing st with
  | nil => rfl
  | cons l ls ih =>
    simp only [List.foldl_cons]
    rw [ih (AIValidator.parseStep st l) (fun x hx => h x (by simp [hx])),
      parseStep_confidence st l (h l (by simp))]

/-- The line loop never changes the verdict when no line is a result
line. -/
theorem parseFold_passed (lines : List String)
    (st : AIValidator.ParseState)
    (h : ∀ l ∈ lines, AIValidator.isResultLine l = false) :
    (lines.foldl AIValidator.parseStep st).passed = st.passed := by
  induction lines generalizing st with
  | nil => rfl
  | cons l ls ih =>
    simp only [List.foldl_cons]
    rw [ih (AIValidator.parseStep st l) (fun x hx => h x (by simp [hx])),
      parseStep_passed st l (h l (by simp))]

/-- The line loop is the identity when every line is unrecognized. -/
theorem parseFold_unrecognized (lines : List String)
    (st : AIValidator.ParseState)
    (h : ∀ l ∈ lines, AIValidator.isResultLine l = false ∧
      AIValidator.isConfLine l = false ∧ AIValidator.isExplLine l = false) :
    lines.foldl AIValidator.parseStep st = st := by
  induction lines generalizing st with
  | nil => rfl
  | cons l ls ih =>
    simp only [List.foldl_cons]
    rw [parseStep_unrecognized st l (h l (by simp)).1 (h l (by simp)).2.1
      (h l (by simp)).2.2, ih st (fun x hx => h x (by simp [hx]))]

/-- Claim C5: the AI escalator fails open.  Parsing ignores unrecognized
lines; no confidence line gives confidence 0.5; no result line gives a
passed verdict; a missing or empty API key gives a passed `ai_skipped`
verdict at confidence 0; any `httpx.HTTPError` (timeout, transport
failure, non-2xx) gives a passed `ai_error` verdict at confidence 0 with
the error recorded in the reason.  AI unavailability therefore never
produces a failing verdict. -/
theorem c5_ai_fails_open :
    (∀ content : String,
      (∀ l ∈ pyStripSplitLines content,
        AIValidator.isResultLine l = false ∧
        AIValidator.isConfLine l = false ∧
        AIValidator.isExplLine l = false) →
      AIValidator.parse_ai_response content =
        ⟨true, mkRat 5 10, content, "ai_vision"⟩) ∧
    (∀ content : String,
      (∀ l ∈ pyStripSplitLines content, AIValidator.isConfLine l = false) →
      (AIValidator.parse_ai_response content).confidence = mkRat 5 10) ∧
    (∀ content : String,
      (∀ l ∈ pyStripSplitLines content, AIValidator.isResultLine l = false) →
      (AIValidator.parse_ai_response content).passed = true) ∧
    (∀ api_key : Option String, AIValidator.keyTruthy api_key = false →
      ∀ resp, AIValidator.validate_with_claude api_key resp =
        ⟨true, 0, "Anthropic API key bulunamadı, AI doğrulama atlandı",
          "ai_skipped"⟩) ∧
    (∀ (api_key : Option String) (m : String),
      AIValidator.keyTruthy api_key = true →
      AIValidator.validate_with_claude api_key
          (AIValidator.HttpResult.httpError m) =
        ⟨true, 0, "AI API hatası: " ++ m, "ai_error"⟩) := by
  refine ⟨?_, ?_, ?_, ?_, ?_⟩
  · intro content h
    unfold AIValidator.parse_ai_response
    rw [parseFold_unrecognized _ _ h]
  · intro content h
    unfold AIValidator.parse_ai_response
    dsimp only
    rw [parseFold_confidence _ _ h]
  · intro content h
    unfold AIValidator.parse_ai_response
    dsimp only
    rw [parseFold_passed _ _ h]
  · intro api_key h resp
    unfold AIValidator.validate_with_claude
    simp [h]
  · intro api_key m h
    unfold AIValidator.validate_with_claude
    simp [h]

/-- Witness for C5 at concrete inputs: an all-unrecognized response, a
missing key, and a timed-out request. -/
theorem c5_ai_fails_open_witness :
    AIValidator.parse_ai_response "Merhaba, ekranda bir liste var." =
      ⟨true, mkRat 5 10, "Merhaba, ekranda bir liste var.", "ai_vision"⟩ ∧
    AIValidator.validate_with_claude none
        (AIValidator.HttpResult.ok "SONUÇ: BAŞARISIZ") =
      ⟨true, 0, "Anthropic API key bulunamadı, AI doğrulama atlandı",
        "ai_skipped"⟩ ∧
    AIValidator.validate_with_claude (some "sk-ant")
        (AIValidator.HttpResult.httpError "timeout") =
      ⟨true, 0, "AI API hatası: timeout", "ai_error"⟩ :=
  ⟨c5_ai_fails_open.1 "Merhaba, ekranda bir liste var." (by decide),
    c5_ai_fails_open.2.2.2.1 none (by decide) _,
    c5_ai_fails_open.2.2.2.2 (some "sk-ant") "timeout" (by decide)⟩

/-- Claim C9 (refuted): the AI response parser does not clamp the parsed
confidence.  On the response "GÜVEN: 150" it produces confidence 1.5,
outside the documented `[0, 1]` range of `ValidationResult.confidence`
(`core/models.py` annotates the field `# 0.0 - 1.0`, and the prompt asks
for 0-100). -/
theorem c9_confidence_overflow :
    (AIValidator.parse_ai_response "GÜVEN: 150").confidence =
      mkRat 150 100 ∧
    ¬ (AIValidator.parse_ai_response "GÜVEN: 150").confidence ≤ 1 := by
  constructor
  · decide
  · decide

/-- The error-indicator scan always tags its verdict `error_detection`. -/
theorem detect_error_indicators_method (env : Env) (s : String) :
    (LocalValidator.detect_error_indicators env s).method =
      "error_detection" := by
  unfold LocalValidator.detect_error_indicators
  split
  · rfl
  · split
    · split <;> rfl
    · rfl

/-- The text-presence check always tags its verdict `ocr`. -/
theorem check_text_exists_method (env : Env) (s t : String) (cs : Bool) :
    (LocalValidator.check_text_exists env s t cs).method = "ocr" := by
  unfold LocalValidator.check_text_exists
  split
  · rfl
  · cases cs <;> dsimp only <;>
      rw [apply_ite ValidationResult.method] <;> simp

/-- A failing error scan short-circuits `validateRest`. -/
theorem validateRest_err (env : Env) (after : String) (exp : Option String)
    (results : List ValidationResult)
    (h : (LocalValidator.detect_error_indicators env after).passed = false) :
    LocalValidator.validateRest env after exp results =
      LocalValidator.detect_error_indicators env after := by
  unfold LocalValidator.validateRest
  simp [h]

/-- A failing text check short-circuits `validateRest` when the error
scan passed. -/
theorem validateRest_text_fail (env : Env) (after t : String)
    (results : List ValidationResult)
    (he : (LocalValidator.detect_error_indicators env after).passed = true)
    (ht : t.isEmpty = false)
    (hf : (LocalValidator.check_text_exists env after t false).passed =
      false) :
    LocalValidator.validateRest env after (some t) results =
      LocalValidator.check_text_exists env after t false := by
  unfold LocalValidator.validateRest
  simp [he, ht, hf]

/-- When the error scan and any executed text check pass, `validateRest`
returns the combined verdict over all executed checks. -/
theorem validateRest_allpass (env : Env) (after : String)
    (exp : Option String) (results : List ValidationResult)
    (he : (LocalValidator.detect_error_indicators env after).passed = true)
    (ht : ∀ t, exp = some t → t.isEmpty = false →
      (LocalValidator.check_text_exists env after t false).passed = true) :
    LocalValidator.validateRest env after exp results =
      LocalValidator.combinedVerdict
        (results ++ [LocalValidator.detect_error_indicators env after] ++
          textCheckList env after exp) := by
  unfold LocalValidator.validateRest textCheckList
  match exp with
  | none => simp [he]
  | some t =>
    cases hemp : t.isEmpty with
    | true => simp [he, hemp]
    | false => simp [he, hemp, ht t rfl hemp]

/-- Claim C4: the orchestration contract of `combinedStepCheck`
(`LocalValidator.validate_step`).  In order: a failing pixel check (run
only when `before` exists) is returned immediately; else a failing error
scan is returned immediately; else a failing text check (run only for a
truthy expectation) is returned immediately; when all executed checks
pass, the verdict is passed, tagged `local_combined`, with confidence
the arithmetic mean of the executed checks' confidences.  When `before`
is absent the result does not depend on the pixel-difference oracle and
its method is never `pixel_diff`. -/
theorem c4_combined_check (env : Env) (before : Option String)
    (after : String) (exp : Option String) :
    (∀ b, before = some b →
      (LocalValidator.pixel_difference env b after (mkRat 1 100)).passed =
        false →
      LocalValidator.validate_step env before after exp =
        LocalValidator.pixel_difference env b after (mkRat 1 100)) ∧
    ((∀ b, before = some b →
      (LocalValidator.pixel_difference env b after (mkRat 1 100)).passed =
        true) →
      (LocalValidator.detect_error_indicators env after).passed = false →
      LocalValidator.validate_step env before after exp =
        LocalValidator.detect_error_indicators env after) ∧
    ((∀ b, before = some b →
      (LocalValidator.pixel_difference env b after (mkRat 1 100)).passed =
        true) →
      (LocalValidator.detect_error_indicators env after).passed = true →
      ∀ t, exp = some t → t.isEmpty = false →
      (LocalValidator.check_text_exists env after t false).passed = false →
      LocalValidator.validate_step env before after exp =
        LocalValidator.check_text_exists env after t false) ∧
    ((∀ b, before = some b →
      (LocalValidator.pixel_difference env b after (mkRat 1 100)).passed =
        true) →
      (LocalValidator.detect_error_indicators env after).passed = true →
      (∀ t, exp = some t → t.isEmpty = false →
        (LocalValidator.check_text_exists env after t false).passed =
          true) →
      LocalValidator.validate_step env before after exp =
        ⟨true,
          ((executedChecks env before after exp).map
            ValidationResult.confidence).sum /
            ((executedChecks env before after exp).length : ℚ),
          "Tüm lokal doğrulamalar başarılı", "local_combined"⟩) ∧
    (before = none → ∀ cr' : String → String → ℚ,
      LocalValidator.validate_step
          ⟨env.imreadOk, cr', env.redRatioOf, env.tesseractAvailable,
            env.ocrText, env.meanBrightnessOf, env.frameChangeRatioOf⟩
          none after exp =
        LocalValidator.validate_step env none after exp) ∧
    (before = none →
      (LocalValidator.validate_step env none after exp).method ≠
        "pixel_diff") := by
  refine ⟨?_, ?_, ?_, ?_, ?_, ?_⟩
  · intro b hb hf
    subst hb
    unfold LocalValidator.validate_step
    simp [hf]
  · intro hp he
    cases before with
    | none =>
      unfold LocalValidator.validate_step
      exact validateRest_err env after exp [] he
    | some b =>
      unfold LocalValidator.validate_step
      simp [hp b rfl]
      exact validateRest_err env after exp _ he
  · intro hp he t hexp ht hf
    subst hexp
    cases before with
    | none =>
      unfold LocalValidator.validate_step
      exact validateRest_text_fail env after t [] he ht hf
    | some b =>
      unfold LocalValidator.validate_step
      simp [hp b rfl]
      exact validateRest_text_fail env after t _ he ht hf
  · intro hp he ht
    have hcomb : ∀ l : List ValidationResult, l.isEmpty = false →
        LocalValidator.combinedVerdict l =
          ⟨true, (l.map ValidationResult.confidence).sum / (l.length : ℚ),
            "Tüm lokal doğrulamalar başarılı", "local_combined"⟩ := by
      intro l hl
      unfold LocalValidator.combinedVerdict
      rw [if_neg (by simp [hl])]
    cases before with
    | none =>
      unfold LocalValidator.validate_step
      rw [validateRest_allpass env after exp [] he ht,
        hcomb _ (by cases textCheckList env after exp <;> simp)]
      rfl
    | some b =>
      unfold LocalValidator.validate_step
      simp only [hp b rfl, Bool.not_true, Bool.false_eq_true, if_false]
      rw [validateRest_allpass env after exp _ he ht,
        hcomb _ (by simp)]
      rfl
  · intro _ cr'
    rcases env with ⟨io, cr, rr, ta, ot, mb, fr⟩
    rfl
  · intro _
    unfold LocalValidator.validate_step LocalValidator.validateRest
    dsimp only
    split
    · rw [detect_error_indicators_method]
      decide
    · split
      · split
        · unfold LocalValidator.combinedVerdict
          split <;> (dsimp only; decide)
        · split
          · rw [check_text_exists_method]
            decide
          · unfold LocalValidator.combinedVerdict
            split <;> (dsimp only; decide)
      · unfold LocalValidator.combinedVerdict
        split <;> (dsimp only; decide)

/-- Witness for C4: a screen with a red error banner short-circuits to
the failing error verdict even though the pixel check passed, and an
all-pass run on `envOcrOn` yields the `local_combined` mean
`(0.8 + 0.8 + 0.85) / 3 = 49/60`. -/
theorem c4_combined_check_witness :
    LocalValidator.validate_step envRedError (some "b.png") "a.png"
        (some "Hoşgeldiniz") =
      LocalValidator.detect_error_indicators envRedError "a.png" ∧
    LocalValidator.validate_step envOcrOn (some "b.png") "a.png"
        (some "Welcome") =
      ⟨true, mkRat 49 60, "Tüm lokal doğrulamalar başarılı",
        "local_combined"⟩ := by
  constructor
  · exact (c4_combined_check envRedError (some "b.png") "a.png"
      (some "Hoşgeldiniz")).2.1 (fun b hb => by cases hb; decide) (by decide)
  · rw [(c4_combined_check envOcrOn (some "b.png") "a.png"
      (some "Welcome")).2.2.2.1 (fun b hb => by cases hb; decide) (by decide)
      (fun t htt hemp => by cases htt; decide)]
    refine congrArg (fun q => ValidationResult.mk true q
      "Tüm lokal doğrulamalar başarılı" "local_combined") ?_
    have h1 : (executedChecks envOcrOn (some "b.png") "a.png"
        (some "Welcome")).map ValidationResult.confidence =
        [mkRat 8 10, mkRat 8 10, mkRat 85 100] := by decide
    have h2 : (executedChecks envOcrOn (some "b.png") "a.png"
        (some "Welcome")).length = 3 := by decide
    rw [h1, h2]
    norm_num [Rat.mkRat_eq_divInt, Rat.divInt_eq_div, List.sum_cons]

/-- Claim C1: the hybrid escalation policy of
`MaestroRunner._validate_step`.  When the local combined verdict passes
with confidence at least 0.8, it is returned and the result does not
depend on the AI oracle at all (the escalator is never invoked).
Otherwise, with an AI validator configured and a truthy expectation, the
AI verdict is returned instead of the local one.  With no AI validator
or no truthy expectation, the local verdict is returned regardless of
its confidence. -/
theorem c1_hybrid_escalation (env : Env) (aiCfg : Bool)
    (ai : String → String → String → ValidationResult)
    (before : Option String) (after : String) (expectation : Option String)
    (step : MaestroStep) :
    ((LocalValidator.validate_step env before after expectation).passed =
        true →
      mkRat 8 10 ≤
        (LocalValidator.validate_step env before after expectation).confidence →
      ∀ ai' : String → String → String → ValidationResult,
        Maestro.validate_step .HYBRID aiCfg env ai' before after expectation
            step =
          some (LocalValidator.validate_step env before after expectation)) ∧
    (¬((LocalValidator.validate_step env before after expectation).passed =
        true ∧
      mkRat 8 10 ≤
        (LocalValidator.validate_step env before after expectation).confidence) →
      aiCfg = true → ∀ e, expectation = some e → e.isEmpty = false →
      Maestro.validate_step .HYBRID aiCfg env ai before after expectation
          step =
        some (ai after e ("Adım: " ++ Maestro.get_step_action step ++ " " ++
          Maestro.get_step_target step))) ∧
    (¬((LocalValidator.validate_step env before after expectation).passed =
        true ∧
      mkRat 8 10 ≤
        (LocalValidator.validate_step env before after expectation).confidence) →
      (aiCfg = false ∨ Maestro.expTruthy expectation = false) →
      Maestro.validate_step .HYBRID aiCfg env ai before after expectation
          step =
        some (LocalValidator.validate_step env before after expectation)) := by
  refine ⟨?_, ?_, ?_⟩
  · intro hp hc ai'
    unfold Maestro.validate_step
    simp [hp, hc]
  · intro hn hcfg e hexp hne
    subst hexp
    have hcond : ((LocalValidator.validate_step env before after
        (some e)).passed &&
        decide (mkRat 8 10 ≤ (LocalValidator.validate_step env before after
          (some e)).confidence)) = false := by
      by_cases hpa : (LocalValidator.validate_step env before after
          (some e)).passed = true
      · by_cases hle : mkRat 8 10 ≤ (LocalValidator.validate_step env before
            after (some e)).confidence
        · exact absurd ⟨hpa, hle⟩ hn
        · simp [hle]
      · simp [hpa]
    unfold Maestro.validate_step
    simp [hcond, hcfg, Maestro.expTruthy, hne]
  · intro hn hor
    have hcond : ((LocalValidator.validate_step env before after
        expectation).passed &&
        decide (mkRat 8 10 ≤ (LocalValidator.validate_step env before after
          expectation).confidence)) = false := by
      by_cases hpa : (LocalValidator.validate_step env before after
          expectation).passed = true
      · by_cases hle : mkRat 8 10 ≤ (LocalValidator.validate_step env before
            after expectation).confidence
        · exact absurd ⟨hpa, hle⟩ hn
        · simp [hle]
      · simp [hpa]
    unfold Maestro.validate_step
    rcases hor with hcfg | hexp
    · simp [hcond, hcfg]
    · simp [hcond, hexp]

/-- Witness for C1 at concrete inputs: a confident local pass is
returned untouched with the AI oracle arbitrary; a failing local
verdict with a configured AI validator and an expectation escalates and
returns the AI verdict; a failing local verdict without an expectation
is returned as is. -/
theorem c1_hybrid_escalation_witness :
    Maestro.validate_step .HYBRID true envOcrOff aiStub none "after.png"
        none [] =
      some ⟨true, mkRat 8 10, "Tüm lokal doğrulamalar başarılı",
        "local_combined"⟩ ∧
    Maestro.validate_step .HYBRID true envRedError aiStub (some "b.png")
        "a.png" (some "Hata yok") [] =
      some ⟨false, mkRat 7 10, "AI: beklenti karşılanmadı", "ai_vision"⟩ ∧
    Maestro.validate_step .HYBRID false envRedError aiStub (some "b.png")
        "a.png" none [] =
      some (LocalValidator.detect_error_indicators envRedError "a.png") := by
  refine ⟨?_, ?_, ?_⟩
  · have her : LocalValidator.detect_error_indicators envOcrOff "after.png" =
        ⟨true, mkRat 8 10, "Hata göstergesi tespit edilmedi",
          "error_detection"⟩ := by decide
    have h1 : LocalValidator.validate_step envOcrOff none "after.png" none =
        LocalValidator.combinedVerdict
          [LocalValidator.detect_error_indicators envOcrOff "after.png"] := by
      unfold LocalValidator.validate_step
      exact validateRest_allpass envOcrOff "after.png" none [] (by decide)
        (fun t ht => by cases ht)
    have h2 : LocalValidator.combinedVerdict
        [(⟨true, mkRat 8 10, "Hata göstergesi tespit edilmedi",
          "error_detection"⟩ : ValidationResult)] =
        ⟨true, mkRat 8 10, "Tüm lokal doğrulamalar başarılı",
          "local_combined"⟩ := by
      unfold LocalValidator.combinedVerdict
      rw [if_neg (by decide)]
      norm_num [ValidationResult.mk.injEq, Rat.mkRat_eq_divInt,
        Rat.divInt_eq_div]
    have hlr : LocalValidator.validate_step envOcrOff none "after.png" none =
        ⟨true, mkRat 8 10, "Tüm lokal doğrulamalar başarılı",
          "local_combined"⟩ := by
      rw [h1, her, h2]
    rw [(c1_hybrid_escalation envOcrOff true aiStub none "after.png" none
      []).1 (by rw [hlr]) (by rw [hlr]) aiStub, hlr]
  · rw [(c1_hybrid_escalation envRedError true aiStub (some "b.png") "a.png"
      (some "Hata yok") []).2.1 (by decide) rfl "Hata yok" rfl (by decide)]
    decide
  · rw [(c1_hybrid_escalation envRedError false aiStub (some "b.png")
      "a.png" none []).2.2 (by decide) (Or.inl rfl)]
    decide

/-- Claim C7: for every analyzed (nonempty, hence actually fed to the
anomaly detector) frame sequence, `analyze_video` reports `success =
false` iff at least one detected anomaly has severity `high`. -/
theorem c7_video_success_iff (env : Env)
    (ai : String → String → String → ValidationResult) (aiCfg : Bool)
    (frames expectations : List String) (use_ai : Bool)
    (h : frames ≠ []) :
    ((Video.analyze_video env ai aiCfg frames expectations use_ai).success =
        false ↔
      ∃ a ∈ Video.detect_anomalies env frames (mkRat 3 10),
        a.severity = "high") := by
  unfold Video.analyze_video
  rw [if_neg (by simp [h])]
  dsimp only [Video.AnalyzeResult.success]
  simp [List.any_eq_true]

/-- Witness for C7 at the claim's scenario: 10 frames with frame 5 at
mean luminance 3 and no other anomalies yield exactly one `black_screen`
anomaly at index 5 with severity high, and `success = false`. -/
theorem c7_video_success_iff_witness :
    Video.detect_anomalies envBlackFrame blackFrames (mkRat 3 10) =
      [⟨"black_screen", 5, "f5", "high",
        "Siyah ekran tespit edildi - crash olabilir"⟩] ∧
    Video.analyze_video envBlackFrame aiStub false blackFrames [] false =
      Video.AnalyzeResult.report false 10
        [⟨"black_screen", 5, "f5", "high",
          "Siyah ekran tespit edildi - crash olabilir"⟩] 1 1 [] ∧
    ((Video.analyze_video envBlackFrame aiStub false blackFrames []
        false).success = false ↔
      ∃ a ∈ Video.detect_anomalies envBlackFrame blackFrames (mkRat 3 10),
        a.severity = "high") :=
  ⟨by decide, by decide,
    c7_video_success_iff envBlackFrame aiStub false blackFrames [] false
      (by decide)⟩

/-- The step loop produces one outcome per step: consecutive indices
starting at `i`, with the Maestro result and message of each step
recorded verbatim. -/
theorem runSteps_spec (lvl : ValidationLevel) (renv : Maestro.RunnerEnv)
    (exps : List String) (steps : List MaestroStep) (i : ℕ)
    (prev : Option String) :
    (Maestro.runSteps lvl renv exps i prev steps).length = steps.length ∧
    ∀ j, j < steps.length →
      ((Maestro.runSteps lvl renv exps i prev steps).get? j).map
          StepResult.index = some (i + j) ∧
      ((Maestro.runSteps lvl renv exps i prev steps).get? j).map
          StepResult.maestro_passed = some (renv.runStep (i + j)).1 ∧
      ((Maestro.runSteps lvl renv exps i prev steps).get? j).map
          StepResult.error_message = some (renv.runStep (i + j)).2 := by
  induction steps generalizing i prev with
  | nil => exact ⟨rfl, fun j hj => absurd hj (by simp)⟩
  | cons st rest ih =>
    refine ⟨?_, ?_⟩
    · simpa [Maestro.runSteps] using ((ih (i + 1) _).1)
    · intro j hj
      cases j with
      | zero =>
        refine ⟨?_, ?_, ?_⟩ <;> simp [Maestro.runSteps]
      | succ j =>
        have hj' : j < rest.length := by simpa using hj
        obtain ⟨h1, h2, h3⟩ :=
          (ih (i + 1) (some (renv.screenshotAfter i))).2 j hj'
        refine ⟨?_, ?_, ?_⟩
        · simpa [Maestro.runSteps, Nat.add_assoc, Nat.add_comm 1 j] using h1
        · simpa [Maestro.runSteps, Nat.add_assoc, Nat.add_comm 1 j] using h2
        · simpa [Maestro.runSteps, Nat.add_assoc, Nat.add_comm 1 j] using h3

/-- Claim C3: for a test with N steps, `run_test` always produces
exactly N StepOutcomes with indices 0..N-1 in definition order,
continuing through failed steps; a step whose runner invocation fails
still yields an outcome with `runner_passed = false` carrying the
runner's error message, never a shorter run. -/
theorem c3_orchestrator_complete (lvl : ValidationLevel)
    (renv : Maestro.RunnerEnv) (tc : TestCase) :
    (Maestro.run_test lvl renv tc).step_results.length =
      tc.steps.length ∧
    (∀ j, j < tc.steps.length →
      ((Maestro.run_test lvl renv tc).step_results.get? j).map
        StepResult.index = some j) ∧
    (∀ j m, renv.runStep j = (false, m) → j < tc.steps.length →
      ((Maestro.run_test lvl renv tc).step_results.get? j).map
          StepResult.maestro_passed = some false ∧
      ((Maestro.run_test lvl renv tc).step_results.get? j).map
          StepResult.error_message = some m) := by
  have h := runSteps_spec lvl renv tc.expectations tc.steps 0 none
  refine ⟨h.1, ?_, ?_⟩
  · intro j hj
    simpa using (h.2 j hj).1
  · intro j m hm hj
    refine ⟨?_, ?_⟩
    · have := (h.2 j hj).2.1
      rw [Nat.zero_add, hm] at this
      exact this
    · have := (h.2 j hj).2.2
      rw [Nat.zero_add, hm] at this
      exact this

/-- Witness for C3: a two-step run whose second step fails still yields
two outcomes, with index 1 carrying `runner_passed = false` and the
runner's message. -/
theorem c3_orchestrator_complete_witness :
    (Maestro.run_test .NONE renvC3 tcC3).step_results.length =
      tcC3.steps.length ∧
    ((Maestro.run_test .NONE renvC3 tcC3).step_results.get? 1).map
      StepResult.index = some 1 ∧
    ((Maestro.run_test .NONE renvC3 tcC3).step_results.get? 1).map
      StepResult.maestro_passed = some false ∧
    ((Maestro.run_test .NONE renvC3 tcC3).step_results.get? 1).map
      StepResult.error_message = some "Element not found" := by
  have h := c3_orchestrator_complete .NONE renvC3 tcC3
  have h2 := h.2.2 1 "Element not found" (by decide) (by decide)
  exact ⟨h.1, h.2.1 1 (by decide), h2.1, h2.2⟩

/-- The self-healing loop does not run when `retry_count < max_retries`
already fails. -/
theorem healGo_stop (henv : WebApp.HealEnv) (m k : ℕ) (yaml : String)
    (st : WebApp.HealState) (hk : ¬ k < m) :
    WebApp.healGo henv m k yaml st = st := by
  rw [WebApp.healGo]
  simp [hk]

/-- An exception inside an iteration sets status `error` and halts,
appending no attempt. -/
theorem healGo_exn (henv : WebApp.HealEnv) (m k : ℕ) (yaml : String)
    (st : WebApp.HealState) (msg : String) (hk : k < m)
    (he : henv.exec k = WebApp.ExecOutcome.exn msg) :
    WebApp.healGo henv m k yaml st =
      ⟨"error", st.retries, k, st.finalYaml, some msg⟩ := by
  rw [WebApp.healGo, dif_pos hk, he]

/-- A passing run appends its attempt, sets status `passed` with the
current YAML as final, and halts. -/
theorem healGo_pass (henv : WebApp.HealEnv) (m k : ℕ) (yaml : String)
    (st : WebApp.HealState) (out err : String) (hk : k < m)
    (he : henv.exec k = WebApp.ExecOutcome.ran true out err) :
    WebApp.healGo henv m k yaml st =
      ⟨"passed", st.retries ++ [⟨k, "passed", out, none, yaml⟩], k,
        some yaml, st.error⟩ := by
  rw [WebApp.healGo, dif_pos hk, he]
  rfl

/-- A failing run before the last allowed iteration appends its attempt,
repairs the YAML and continues. -/
theorem healGo_fail_continue (henv : WebApp.HealEnv) (m k : ℕ)
    (yaml : String) (st : WebApp.HealState) (out err : String)
    (hk : k < m) (hl : k < m - 1)
    (he : henv.exec k = WebApp.ExecOutcome.ran false out err) :
    WebApp.healGo henv m k yaml st =
      WebApp.healGo henv m (k + 1)
        (henv.fix k yaml (if err.isEmpty then out else err))
        ⟨st.status, st.retries ++ [⟨k, "failed", out, some err, yaml⟩], k,
          st.finalYaml, st.error⟩ := by
  rw [WebApp.healGo, dif_pos hk, he]
  simp [hl]

/-- A failing run at the last allowed iteration appends its attempt,
sets status `failed` with the current YAML as final, and halts. -/
theorem healGo_fail_last (henv : WebApp.HealEnv) (m k : ℕ) (yaml : String)
    (st : WebApp.HealState) (out err : String) (hk : k < m)
    (hl : ¬ k < m - 1)
    (he : henv.exec k = WebApp.ExecOutcome.ran false out err) :
    WebApp.healGo henv m k yaml st =
      ⟨"failed", st.retries ++ [⟨k, "failed", out, some err, yaml⟩], k,
        some yaml, st.error⟩ := by
  rw [WebApp.healGo, dif_pos hk, he]
  simp [hl]

/-- Each loop iteration appends at most one attempt: from iteration `k`
with at most `d` iterations left, at most `d` attempts are added. -/
theorem healGo_length (henv : WebApp.HealEnv) (m : ℕ) :
    ∀ d k yaml (st : WebApp.HealState), m - k ≤ d →
      (WebApp.healGo henv m k yaml st).retries.length ≤
        st.retries.length + d := by
  intro d
  induction d with
  | zero =>
    intro k yaml st hd
    rw [healGo_stop henv m k yaml st (by omega)]
    omega
  | succ d ih =>
    intro k yaml st hd
    by_cases hk : k < m
    · cases he : henv.exec k with
      | exn msg =>
        rw [healGo_exn henv m k yaml st msg hk he]
        simp
      | ran p out err =>
        cases p with
        | true =>
          rw [healGo_pass henv m k yaml st out err hk he]
          simp
        | false =>
          by_cases hl : k < m - 1
          · rw [healGo_fail_continue henv m k yaml st out err hk hl he]
            have := ih (k + 1)
              (henv.fix k yaml (if err.isEmpty then out else err))
              ⟨st.status, st.retries ++ [⟨k, "failed", out, some err, yaml⟩],
                k, st.finalYaml, st.error⟩ (by omega)
            simp at this
            omega
          · rw [healGo_fail_last henv m k yaml st out err hk hl he]
            simp
    · rw [healGo_stop henv m k yaml st hk]
      omega

/-- From any iteration still inside the loop, the run ends in one of the
three terminal statuses. -/
theorem healGo_terminal (henv : WebApp.HealEnv) (m : ℕ) :
    ∀ d k yaml (st : WebApp.HealState), m - k ≤ d → k < m →
      (WebApp.healGo henv m k yaml st).status = "passed" ∨
      (WebApp.healGo henv m k yaml st).status = "failed" ∨
      (WebApp.healGo henv m k yaml st).status = "error" := by
  intro d
  induction d with
  | zero => intro k yaml st hd hk; omega
  | succ d ih =>
    intro k yaml st hd hk
    cases he : henv.exec k with
    | exn msg =>
      rw [healGo_exn henv m k yaml st msg hk he]
      right; right; rfl
    | ran p out err =>
      cases p with
      | true =>
        rw [healGo_pass henv m k yaml st out err hk he]
        left; rfl
      | false =>
        by_cases hl : k < m - 1
        · rw [healGo_fail_continue henv m k yaml st out err hk hl he]
          exact ih (k + 1) _ _ (by omega) (by omega)
        · rw [healGo_fail_last henv m k yaml st out err hk hl he]
          right; left; rfl

/-- After `t` ran-and-failed iterations the loop stands at iteration `t`
with the `t`-times-healed YAML and exactly the `t` failed attempts
recorded. -/
theorem healGo_advance (henv : WebApp.HealEnv) (yaml : String) (m : ℕ) :
    ∀ t, t < m → (∀ j, j < t → isRanFailed (henv.exec j) = true) →
      WebApp.run_self_healing_test_background henv yaml m =
        WebApp.healGo henv m t (healedYaml henv yaml t)
          ⟨"running", failedAttempts henv yaml t, t - 1, none, none⟩ := by
  intro t
  induction t with
  | zero => intro _ _; rfl
  | succ t ih =>
    intro ht hall
    have hrun := ih (by omega) (fun j hj => hall j (by omega))
    have hft := hall t (by omega)
    rcases hexec : henv.exec t with msg | p
    case exn => rw [hexec] at hft; simp [isRanFailed] at hft
    case ran out err =>
      cases p with
      | true => rw [hexec] at hft; simp [isRanFailed] at hft
      | false =>
        rw [hrun, healGo_fail_continue henv m t (healedYaml henv yaml t) _
          out err (by omega) (by omega) hexec]
        have hy : healedYaml henv yaml (t + 1) =
            henv.fix t (healedYaml henv yaml t)
              (if err.isEmpty then out else err) := by
          simp [healedYaml, hexec]
        have hf : failedAttempts henv yaml (t + 1) =
            failedAttempts henv yaml t ++
              [⟨t, "failed", out, some err, healedYaml henv yaml t⟩] := by
          simp [failedAttempts, hexec]
        rw [hy, hf]
        simp

/-- Claim C2 (amended: `maxRetries ≥ 1`): the self-healing run records
at most `maxRetries` attempts and ends in exactly one terminal status
among passed/failed/error; at the first non-ran-failed iteration the
final record is determined: an exception yields `error` immediately with
no attempt appended and no retry, a passing run yields `passed`
immediately with the currently-healed YAML as final; if every iteration
runs and fails, the run ends `failed` after exactly `maxRetries`
attempts.  Terminal states are final: the returned record contains only
the attempts made before the terminal transition. -/
theorem c2_selfhealing_amended (henv : WebApp.HealEnv) (yaml : String)
    (m : ℕ) (hm : 1 ≤ m) :
    (WebApp.run_self_healing_test_background henv yaml m).retries.length
        ≤ m ∧
    ((WebApp.run_self_healing_test_background henv yaml m).status =
        "passed" ∨
      (WebApp.run_self_healing_test_background henv yaml m).status =
        "failed" ∨
      (WebApp.run_self_healing_test_background henv yaml m).status =
        "error") ∧
    (∀ k, k < m → (∀ j, j < k → isRanFailed (henv.exec j) = true) →
      (∀ msg, henv.exec k = WebApp.ExecOutcome.exn msg →
        WebApp.run_self_healing_test_background henv yaml m =
          ⟨"error", failedAttempts henv yaml k, k, none, some msg⟩) ∧
      (∀ out err, henv.exec k = WebApp.ExecOutcome.ran true out err →
        WebApp.run_self_healing_test_background henv yaml m =
          ⟨"passed",
            failedAttempts henv yaml k ++
              [⟨k, "passed", out, none, healedYaml henv yaml k⟩], k,
            some (healedYaml henv yaml k), none⟩)) ∧
    ((∀ j, j < m → isRanFailed (henv.exec j) = true) →
      WebApp.run_self_healing_test_background henv yaml m =
        ⟨"failed", failedAttempts henv yaml m, m - 1,
          some (healedYaml henv yaml (m - 1)), none⟩) := by
  refine ⟨?_, ?_, ?_, ?_⟩
  · have := healGo_length henv m m 0 yaml ⟨"running", [], 0, none, none⟩
      (by omega)
    simpa [WebApp.run_self_healing_test_background] using this
  · have := healGo_terminal henv m m 0 yaml ⟨"running", [], 0, none, none⟩
      (by omega) (by omega)
    simpa [WebApp.run_self_healing_test_background] using this
  · intro k hk hall
    have hadv := healGo_advance henv yaml m k hk hall
    constructor
    · intro msg he
      rw [hadv, healGo_exn henv m k _ _ msg hk he]
    · intro out err he
      rw [hadv, healGo_pass henv m k _ _ out err hk he]
  · intro hall
    obtain ⟨m', rfl⟩ : ∃ m', m = m' + 1 :=
      ⟨m - 1, by omega⟩
    have hadv := healGo_advance henv yaml (m' + 1) m' (by omega)
      (fun j hj => hall j (by omega))
    have hft := hall m' (by omega)
    rcases hexec : henv.exec m' with msg | p
    case exn => rw [hexec] at hft; simp [isRanFailed] at hft
    case ran out err =>
      cases p with
      | true => rw [hexec] at hft; simp [isRanFailed] at hft
      | false =>
        rw [hadv, healGo_fail_last henv (m' + 1) m' _ _ out err (by omega)
          (by omega) hexec]
        have hf : failedAttempts henv yaml (m' + 1) =
            failedAttempts henv yaml m' ++
              [⟨m', "failed", out, some err, healedYaml henv yaml m'⟩] := by
          simp [failedAttempts, hexec]
        rw [hf]
        simp

/-- Witness for the amended C2: with the default bound 5, a run whose
first iteration fails and whose second passes ends `passed` after
exactly two recorded attempts, with the once-healed YAML as final. -/
theorem c2_selfhealing_amended_witness :
    WebApp.run_self_healing_test_background henvC2pass "appId: x" 5 =
      ⟨"passed",
        [⟨0, "failed", "step 2 FAILED", some "timeout hit", "appId: x"⟩,
         ⟨1, "passed", "all steps COMPLETED", none,
           "appId: x\n# fix: increased wait"⟩],
        1, some "appId: x\n# fix: increased wait", none⟩ ∧
    (WebApp.run_self_healing_test_background henvC2pass "appId: x"
      5).retries.length ≤ 5 := by
  have h := c2_selfhealing_amended henvC2pass "appId: x" 5 (by omega)
  have h2 := (h.2.2.1 1 (by omega)
      (fun j hj => by
        have hj0 : j = 0 := by omega
        subst hj0
        decide)).2
    "all steps COMPLETED" "" (by decide)
  constructor
  · rw [h2]
    decide
  · exact h.1

/-- Claim C2 as stated is refuted at `maxRetries = 0`: the loop body is
never entered and the run record keeps the non-terminal status
`running`, so the run does not end in one of PASSED, FAILED, ERROR. -/
theorem c2_zero_retries_not_terminal :
    (WebApp.run_self_healing_test_background henvC2 "appId: x" 0).status =
      "running" ∧
    ¬((WebApp.run_self_healing_test_background henvC2 "appId: x" 0).status =
        "passed" ∨
      (WebApp.run_self_healing_test_background henvC2 "appId: x" 0).status =
        "failed" ∨
      (WebApp.run_self_healing_test_background henvC2 "appId: x" 0).status =
        "error") := by
  have h : WebApp.run_self_healing_test_background henvC2 "appId: x" 0 =
      ⟨"running", [], 0, none, none⟩ :=
    healGo_stop henvC2 0 0 "appId: x" ⟨"running", [], 0, none, none⟩
      (by omega)
  rw [h]
  refine ⟨rfl, ?_⟩
  rintro (hc | hc | hc) <;> simp at hc

/-- Claim C6: for every StepOutcome, `truly_passed` equals
`runner_passed` AND (verdict absent OR verdict passed); in particular it
is false whenever `runner_passed` is false, regardless of the verdict. -/
theorem c6_truly_passed (s : StepResult) :
    (s.truly_passed = true ↔
      s.maestro_passed = true ∧
        (s.validation_result = none ∨
          ∃ v, s.validation_result = some v ∧ v.passed = true)) ∧
    (s.maestro_passed = false → s.truly_passed = false) := by
  unfold StepResult.truly_passed
  rcases s with ⟨i, a, t, mp, vr, sb, sa, em⟩
  cases vr <;> cases mp <;> simp

/-- Witness for C6 at the claim's own example: `runner_passed=false`
with a passing confidence-1.0 verdict still gives `truly_passed=false`. -/
theorem c6_truly_passed_witness :
    c6Step.maestro_passed = false ∧ c6Step.truly_passed = false :=
  ⟨rfl, (c6_truly_passed c6Step).2 rfl⟩

/-- Claim C8: when OCR is unavailable, `check_text_exists` returns the
soft-pass verdict `passed=true, confidence=0, method="ocr"` with the
explicit skip reason — never a failing verdict. -/
theorem c8_ocr_soft_pass (env : Env) (screenshot expected_text : String)
    (case_sensitive : Bool) (h : env.tesseractAvailable = false) :
    LocalValidator.check_text_exists env screenshot expected_text
        case_sensitive =
      ⟨true, 0, "Tesseract OCR yüklü değil, text kontrolü atlandı", "ocr"⟩ := by
  unfold LocalValidator.check_text_exists
  simp [h]

/-- Witness for C8: the end-to-end scenario with expectation "Welcome"
on an OCR-less machine. -/
theorem c8_ocr_soft_pass_witness :
    envOcrOff.tesseractAvailable = false ∧
      (LocalValidator.check_text_exists envOcrOff "after.png" "Welcome"
          false).passed = true ∧
      (LocalValidator.check_text_exists envOcrOff "after.png" "Welcome"
          false).confidence = 0 ∧
      (LocalValidator.check_text_exists envOcrOff "after.png" "Welcome"
          false).method = "ocr" := by
  refine ⟨rfl, ?_, ?_, ?_⟩ <;>
    rw [c8_ocr_soft_pass envOcrOff "after.png" "Welcome" false rfl]

/-- Claim C10: the AI repair step is total (it is a function) and atomic
on failure: with no usable API key or with any provider failure
(request error, timeout, unparseable response), `analyze_and_fix_test`
returns the original definition text unchanged. -/
theorem c10_repair_atomic (api_key : Option String)
    (provider : WebApp.ProviderResult) (yaml_content : String)
    (h : AIValidator.keyTruthy api_key = false ∨
      ∃ m, provider = WebApp.ProviderResult.failure m) :
    WebApp.analyze_and_fix_test api_key provider yaml_content =
      yaml_content := by
  unfold WebApp.analyze_and_fix_test
  rcases h with h | ⟨m, rfl⟩
  · simp [h]
  · cases hk : AIValidator.keyTruthy api_key <;> simp [hk]

/-- Witness for C10: a timed-out provider call with a configured key
leaves the YAML unchanged. -/
theorem c10_repair_atomic_witness :
    WebApp.analyze_and_fix_test (some "gsk")
        (WebApp.ProviderResult.failure "timeout") "appId: x" = "appId: x" :=
  c10_repair_atomic (some "gsk") (WebApp.ProviderResult.failure "timeout")
    "appId: x" (Or.inr ⟨"timeout", rfl⟩)

end Yeytest
